import Mathlib

/-!
Shallow embedding of the geometric and photometric image-correction engine of
the obsidian-scan-sketch plugin, together with theorems checking the
natural-language specification against it.

Modelling conventions:
* JavaScript numbers are idealised as exact rationals (`ℚ`) wherever the code
  performs ordinary arithmetic; `Math.sqrt` is modelled by `Real.sqrt`, so
  values flowing through a square root live in `ℝ`.
* For `validateCropPoints`, whose whole point is the handling of `NaN`, the
  coordinates are modelled by `JSNum`, which distinguishes `NaN` and the two
  infinities from finite numbers.
* `Math.round x` is `⌊x + 1/2⌋` (JavaScript rounds half-up, ties toward +∞).
* RGBA pixel buffers (`ImageData.data`, a `Uint8ClampedArray`) are lists of
  naturals; an out-of-range `List.set` is a no-op, exactly like an
  out-of-range write to a JavaScript typed array, and out-of-range reads are
  `getD _ 0` (a `NaN`/`undefined` read stores as 0 in a clamped array).
* In-place mutation is modelled by explicit state passing: each operator
  returns the updated buffer.
-/

namespace ScanSketch

/-! ### JavaScript number model (only needed by `validateCropPoints`) -/

/-- Model of a JavaScript `number`: `NaN`, the two infinities, or a finite
value idealised as a rational. -/
inductive JSNum where
  | nan : JSNum
  | posInf : JSNum
  | negInf : JSNum
  | num : ℚ → JSNum
deriving DecidableEq

/-- Model of JavaScript `isNaN` on a `number` argument. -/
def jsIsNaN : JSNum → Bool
  | .nan => true
  | _ => false

/-- Model of `typeof v === "number"`: every `JSNum` is a number value
(including `NaN` and the infinities), so this is constantly `true`. -/
def jsTypeofIsNumber : JSNum → Bool := fun _ => true

/-- Model of JavaScript `Number.isFinite`: true exactly on finite numbers.
Used only to state the specification claim, never by the code. -/
def jsIsFinite : JSNum → Bool
  | .num _ => true
  | _ => false

/-- Crop point as seen by `validateCropPoints`: raw JavaScript numbers. -/
structure CropPointJS where
  x : JSNum
  y : JSNum
  isDragging : Bool
deriving DecidableEq

/-- From `src/Services/CropPointManager.ts` (`validateCropPoints`): false on a
point count other than 4, otherwise `every` point must satisfy
`typeof p.x === "number" && typeof p.y === "number" && !isNaN(p.x) && !isNaN(p.y)`. -/
def validateCropPoints (points : List CropPointJS) : Bool :=
  if points.length ≠ 4 then
    false
  else
    points.all fun p =>
      jsTypeofIsNumber p.x && jsTypeofIsNumber p.y && !jsIsNaN p.x && !jsIsNaN p.y

/-! ### Crop-point geometry (finite-number world, coordinates in `ℚ`) -/

/-- Crop point with finite coordinates, as used by the geometric operations. -/
structure CropPoint where
  x : ℚ
  y : ℚ
  isDragging : Bool
deriving DecidableEq

instance : Inhabited CropPoint := ⟨⟨0, 0, false⟩⟩

/-- From `src/Services/CropPointManager.ts` (`updateCropPoint`): out-of-range
indices return the input array; otherwise a copy is made whose `index` entry is
the spread `{...updated[index], x, y}` (same `isDragging`, new coordinates).
The JavaScript `index` is modelled as an integer so that `index < 0` is
representable. -/
def updateCropPoint (points : List CropPoint) (index : ℤ) (x y : ℚ) :
    List CropPoint :=
  if index < 0 ∨ (points.length : ℤ) ≤ index then
    points
  else
    points.set index.toNat
      { points.getD index.toNat default with x := x, y := y }

/-- Comparator `(a, b) => (a.x + a.y) - (b.x + b.y)` of the first sort in
`orderCropPoints`, as the preorder it induces: the comparator is `≤ 0` iff the
coordinate sums are ordered. -/
def sumLe (a b : CropPoint) : Prop := a.x + a.y ≤ b.x + b.y

instance : DecidableRel sumLe := fun a b =>
  inferInstanceAs (Decidable (a.x + a.y ≤ b.x + b.y))

instance : IsTotal CropPoint sumLe := ⟨fun a b => le_total (a.x + a.y) (b.x + b.y)⟩

instance : IsTrans CropPoint sumLe := ⟨fun _ _ _ h h' => le_trans h h'⟩

/-- Numeric comparator of the second sort in `orderCropPoints`:
`diffY = a.y - b.y`; if `Math.abs(diffY) > 10` return `diffY`, else
return `b.x - a.x`. -/
def trblCompare (a b : CropPoint) : ℚ :=
  if |a.y - b.y| > 10 then a.y - b.y else b.x - a.x

/-- Preorder induced by `trblCompare` (comparator value `≤ 0` keeps `a` first;
a stable sort swaps a two-element array exactly when the comparator is `> 0`). -/
def trblLe (a b : CropPoint) : Prop := trblCompare a b ≤ 0

instance : DecidableRel trblLe := fun a b =>
  inferInstanceAs (Decidable (trblCompare a b ≤ 0))

/-- From `src/Services/CropPointManager.ts` (`orderCropPoints`): throws unless
exactly 4 points; sorts a copy by ascending coordinate sum (JavaScript
`Array.prototype.sort` is stable, modelled by the stable
`List.insertionSort`); index 0 of the sorted copy is top-left and index 3
bottom-right; the two middle points are sorted by `trblCompare` to give
top-right then bottom-left. Indexing is via `getD`; the guard makes the
`default` fallback unreachable since sorting preserves the length 4. -/
def orderCropPoints (points : List CropPoint) : Except String (List CropPoint) :=
  if points.length ≠ 4 then
    .error "Need exactly 4 crop points"
  else
    let sortedPoints := List.insertionSort sumLe points
    let topLeft := sortedPoints.getD 0 default
    let bottomRight := sortedPoints.getD 3 default
    let remaining := List.insertionSort trblLe
      [sortedPoints.getD 1 default, sortedPoints.getD 2 default]
    let topRight := remaining.getD 0 default
    let bottomLeft := remaining.getD 1 default
    .ok [topLeft, topRight, bottomLeft, bottomRight]

/-- From `src/Services/CropPointManager.ts` (`calculateDistance`):
`Math.sqrt((p2.x-p1.x)^2 + (p2.y-p1.y)^2)`. -/
noncomputable def calculateDistance (p1 p2 : CropPoint) : ℝ :=
  Real.sqrt (((p2.x - p1.x) ^ 2 + (p2.y - p1.y) ^ 2 : ℚ) : ℝ)

/-- JavaScript `Math.round` on a real argument: `⌊x + 1/2⌋` (ties toward +∞). -/
noncomputable def jround (x : ℝ) : ℤ := ⌊x + 1 / 2⌋

/-- JavaScript `Math.round` restricted to rationals (used where no square root
is involved, so the computation stays executable). -/
def jroundQ (q : ℚ) : ℤ := ⌊q + 1 / 2⌋

/-- Output dimensions in buffer pixels; the fields are the integers produced
by `Math.round`. -/
structure ImageDimensions where
  width : ℤ
  height : ℤ
deriving DecidableEq

/-- From `src/Services/CropPointManager.ts` (`calculateOutputDimensions`):
throws unless exactly 4 points; edge lengths are taken at raw positional
indices (0-1 top, 2-3 bottom, 0-2 left, 1-3 right); output is
`round(max(topWidth, bottomWidth) * dpr)` by `round(max(leftHeight,
rightHeight) * dpr)`. -/
noncomputable def calculateOutputDimensions (points : List CropPoint) (dpr : ℚ) :
    Except String ImageDimensions :=
  if points.length ≠ 4 then
    .error "Need exactly 4 crop points to calculate dimensions"
  else
    let topWidth := calculateDistance (points.getD 0 default) (points.getD 1 default)
    let bottomWidth := calculateDistance (points.getD 2 default) (points.getD 3 default)
    let leftHeight := calculateDistance (points.getD 0 default) (points.getD 2 default)
    let rightHeight := calculateDistance (points.getD 1 default) (points.getD 3 default)
    let width := max topWidth bottomWidth
    let height := max leftHeight rightHeight
    .ok ⟨jround (width * (dpr : ℝ)), jround (height * (dpr : ℝ))⟩

/-! ### Pixel buffers and the photometric filter pipeline -/

/-- Model of an `ImageData`: RGBA bytes in a dense row-major list. The
invariant `data.length = width * height * 4` is carried as a hypothesis where
needed rather than inside the structure. -/
structure ImageData where
  width : ℕ
  height : ℕ
  data : List ℕ
deriving DecidableEq

/-- From `src/Services/types` and `src/Services/ImageFilter.ts`: the filter
configuration; slider values idealised as rationals. -/
structure ImageFilterConfig where
  brightness : ℚ
  contrast : ℚ
  saturation : ℚ
  blackAndWhite : Bool
deriving DecidableEq

/-- From `src/Services/ImageFilter.ts`: the default (identity) configuration. -/
def DEFAULT_FILTER_CONFIG : ImageFilterConfig :=
  { brightness := 0, contrast := 0, saturation := 0, blackAndWhite := false }

/-- Storage conversion of a JavaScript `Uint8ClampedArray`: clamp to
`[0, 255]` and round half to even. The filter code additionally pre-clamps
with `Math.max(0, Math.min(255, v))`, which this function absorbs. -/
def toUint8Clamp (v : ℚ) : ℕ :=
  if v ≤ 0 then 0
  else if 255 ≤ v then 255
  else
    (if v - ⌊v⌋ > 1 / 2 then ⌊v⌋ + 1
     else if v - ⌊v⌋ < 1 / 2 then ⌊v⌋
     else if ⌊v⌋ % 2 = 0 then ⌊v⌋ else ⌊v⌋ + 1).toNat

/-- BT.601 luma `0.299*r + 0.587*g + 0.114*b` shared by `applySaturation` and
`convertToBlackAndWhite`. -/
def lumaQ (r g b : ℚ) : ℚ := 299 / 1000 * r + 587 / 1000 * g + 114 / 1000 * b

/-- Loop body of `applyBrightnessContrast`, one RGBA chunk at a time: contrast
around the midpoint 128, then additive brightness, then clamp to `[0, 255]`;
alpha untouched. A trailing partial chunk is unreachable on a well-formed
buffer and left unchanged. -/
def bcData (brightnessValue contrastFactor : ℚ) : List ℕ → List ℕ
  | r :: g :: b :: a :: rest =>
    toUint8Clamp (max 0 (min 255 (((r : ℚ) - 128) * contrastFactor + 128 + brightnessValue))) ::
    toUint8Clamp (max 0 (min 255 (((g : ℚ) - 128) * contrastFactor + 128 + brightnessValue))) ::
    toUint8Clamp (max 0 (min 255 (((b : ℚ) - 128) * contrastFactor + 128 + brightnessValue))) ::
    a :: bcData brightnessValue contrastFactor rest
  | rest => rest

/-- From `src/Services/ImageFilter.ts` (`applyBrightnessContrast`):
`brightnessValue = brightness / 100 * 255`, `contrastFactor = (contrast + 100) / 100`. -/
def applyBrightnessContrast (imageData : ImageData) (brightness contrast : ℚ) :
    ImageData :=
  { imageData with
    data := bcData (brightness / 100 * 255) ((contrast + 100) / 100) imageData.data }

/-- Loop body of `applySaturation`: interpolate each channel between its BT.601
gray value and itself by `saturationFactor`, clamp; alpha untouched. -/
def satData (saturationFactor : ℚ) : List ℕ → List ℕ
  | r :: g :: b :: a :: rest =>
    toUint8Clamp (max 0 (min 255
      (lumaQ r g b + saturationFactor * ((r : ℚ) - lumaQ r g b)))) ::
    toUint8Clamp (max 0 (min 255
      (lumaQ r g b + saturationFactor * ((g : ℚ) - lumaQ r g b)))) ::
    toUint8Clamp (max 0 (min 255
      (lumaQ r g b + saturationFactor * ((b : ℚ) - lumaQ r g b)))) ::
    a :: satData saturationFactor rest
  | rest => rest

/-- From `src/Services/ImageFilter.ts` (`applySaturation`):
`saturationFactor = (saturation + 100) / 100`. -/
def applySaturation (imageData : ImageData) (saturation : ℚ) : ImageData :=
  { imageData with data := satData ((saturation + 100) / 100) imageData.data }

/-- Pass 1 of `convertToBlackAndWhite`: per pixel, `Math.round` of the BT.601
luma, stored in a `Uint8Array` (values lie in `[0, 255]`, so no wrapping). -/
def grayList : List ℕ → List ℕ
  | r :: g :: b :: _a :: rest => (jroundQ (lumaQ r g b)).toNat :: grayList rest
  | _ => []

/-- Pass 2 of `convertToBlackAndWhite`: each pixel becomes 255 on all three
colour channels if its stored gray exceeds the threshold, else 0; alpha kept. -/
def bwData (threshold : ℚ) : List ℕ → List ℕ → List ℕ
  | gray :: grays, _r :: _g :: _b :: a :: rest =>
    (if (gray : ℚ) > threshold then 255 else 0) ::
    (if (gray : ℚ) > threshold then 255 else 0) ::
    (if (gray : ℚ) > threshold then 255 else 0) ::
    a :: bwData threshold grays rest
  | _, rest => rest

/-- Per-buffer threshold of `convertToBlackAndWhite`:
`Math.max(128, avg * 0.85)` where `avg` is the mean of the rounded grays.
In `ℚ` the empty-buffer division `0 / 0` is 0, so the threshold degenerates to
128 there; the JavaScript `NaN` threshold likewise touches no pixel. -/
def bwThreshold (data : List ℕ) : ℚ :=
  max 128 (((grayList data).sum : ℚ) / ((grayList data).length : ℚ) * (85 / 100))

/-- From `src/Services/ImageFilter.ts` (`convertToBlackAndWhite`): two passes,
rounded-luma gray values, adaptive threshold `max(128, avg * 0.85)`. -/
def convertToBlackAndWhite (imageData : ImageData) : ImageData :=
  { imageData with
    data := bwData (bwThreshold imageData.data) (grayList imageData.data) imageData.data }

/-- From `src/Services/ImageFilter.ts` (`hasActiveFilters`). -/
def hasActiveFilters (config : ImageFilterConfig) : Bool :=
  config.brightness ≠ 0 || config.contrast ≠ 0 || config.saturation ≠ 0 ||
    config.blackAndWhite

/-- From `src/Services/ImageFilter.ts` (`applyFilters`): black-and-white if
enabled (skipping saturation), else saturation if non-zero; then always last,
brightness/contrast if either is non-zero. -/
def applyFilters (imageData : ImageData) (config : ImageFilterConfig) : ImageData :=
  let afterTone :=
    if config.blackAndWhite then
      convertToBlackAndWhite imageData
    else
      if config.saturation ≠ 0 then applySaturation imageData config.saturation
      else imageData
  if config.brightness ≠ 0 ∨ config.contrast ≠ 0 then
    applyBrightnessContrast afterTone config.brightness config.contrast
  else
    afterTone

/-! ### Background segmentation -/

/-- Reference colour for background removal
(`src/Services/ImageBackgroundRemoval`). -/
structure RGB where
  r : ℕ
  g : ℕ
  b : ℕ
deriving DecidableEq

/-- From `src/Services/ImageBackgroundRemoval` (`calculateColorDistance`):
Euclidean distance in RGB space via `Math.sqrt`. -/
noncomputable def calculateColorDistance (r1 g1 b1 r2 g2 b2 : ℚ) : ℝ :=
  Real.sqrt (((r1 - r2) ^ 2 + (g1 - g2) ^ 2 + (b1 - b2) ^ 2 : ℚ) : ℝ)

/-- Loop body of `removeBackground`, one RGBA chunk at a time: colour channels
are copied; the alpha is zeroed when the pixel's distance to the target colour
is at most `maxDistance`, otherwise kept. -/
noncomputable def rbData (targetColor : RGB) (maxDistance : ℝ) : List ℕ → List ℕ
  | r :: g :: b :: a :: rest =>
    r :: g :: b ::
    (if calculateColorDistance r g b targetColor.r targetColor.g targetColor.b ≤
        maxDistance then 0 else a) ::
    rbData targetColor maxDistance rest
  | rest => rest

/-- From `src/Services/ImageBackgroundRemoval` (`removeBackground`): works on
a fresh copy of the buffer (modelled by returning a new value) with
`maxDistance = tolerance * 4.41`. -/
noncomputable def removeBackground (imageData : ImageData) (targetColor : RGB)
    (tolerance : ℚ) : ImageData :=
  { imageData with
    data := rbData targetColor ((tolerance : ℝ) * (441 / 100)) imageData.data }

/-! ### Perspective rectification -/

/-- Modelled from the spec: the `perspective-transform` npm library invoked by
`performPerspectiveCrop` ships no sources in this repository. Per §4.2 the
constructed object exposes `transformInverse`, mapping destination coordinates
back to source CSS coordinates; per §4.2/§7 construction can fail on
degenerate (collinear) quadrilaterals, so the constructor is passed to
`performPerspectiveCrop` as a parameter of type
`List ℚ → List ℚ → Except String PerspTransform`, where an `error` models a
thrown construction exception and its string the exception message. -/
structure PerspTransform where
  transformInverse : ℚ → ℚ → ℚ × ℚ

/-- Structured result of `performPerspectiveCrop`
(`OperationResult & imageData? & dimensions?`). -/
structure OperationResult where
  success : Bool
  message : String
  imageData : Option ImageData
  dimensions : Option ImageDimensions

/-- Flattened source coordinates `[TLx, TLy, TRx, TRy, BLx, BLy, BRx, BRy]`
taken from the ordered points, as built in `performPerspectiveCrop`. -/
def srcCoords (orderedPoints : List CropPoint) : List ℚ :=
  [ (orderedPoints.getD 0 default).x, (orderedPoints.getD 0 default).y,
    (orderedPoints.getD 1 default).x, (orderedPoints.getD 1 default).y,
    (orderedPoints.getD 2 default).x, (orderedPoints.getD 2 default).y,
    (orderedPoints.getD 3 default).x, (orderedPoints.getD 3 default).y ]

/-- Flattened destination coordinates
`[0, 0, w, 0, 0, h, w, h]` built in `performPerspectiveCrop`. -/
def dstCoords (dimensions : ImageDimensions) : List ℚ :=
  [0, 0, (dimensions.width : ℚ), 0, 0, (dimensions.height : ℚ),
   (dimensions.width : ℚ), (dimensions.height : ℚ)]

/-- Loop body of the per-pixel resampling in `performPerspectiveCrop` for the
destination pixel `(x, y)`: inverse-map, scale by `dpr`, `Math.round`; copy
the four source channels when the source index is in bounds, otherwise set
only the alpha byte to 0 (the buffer starts zeroed). -/
def writePix (src : ImageData) (sourceWidth sourceHeight : ℤ) (T : PerspTransform)
    (dpr : ℚ) (w : ℕ) (data : List ℕ) (x y : ℕ) : List ℕ :=
  let coords := T.transformInverse (x : ℚ) (y : ℚ)
  let srcX := jroundQ (coords.1 * dpr)
  let srcY := jroundQ (coords.2 * dpr)
  if 0 ≤ srcX ∧ srcX < sourceWidth ∧ 0 ≤ srcY ∧ srcY < sourceHeight then
    let srcIdx := ((srcY * sourceWidth + srcX) * 4).toNat
    let dstIdx := (y * w + x) * 4
    ((((data.set dstIdx (src.data.getD srcIdx 0)).set (dstIdx + 1)
        (src.data.getD (srcIdx + 1) 0)).set (dstIdx + 2)
        (src.data.getD (srcIdx + 2) 0)).set (dstIdx + 3)
        (src.data.getD (srcIdx + 3) 0))
  else
    data.set ((y * w + x) * 4 + 3) 0

/-- Nested `for y / for x` resampling loop of `performPerspectiveCrop`,
starting from the zero-initialised `new ImageData(w, h)` buffer. -/
def cropLoopData (src : ImageData) (sourceWidth sourceHeight : ℤ)
    (T : PerspTransform) (dpr : ℚ) (w h : ℕ) : List ℕ :=
  (List.range h).foldl
    (fun d y => (List.range w).foldl
      (fun d x => writePix src sourceWidth sourceHeight T dpr w d x y) d)
    (List.replicate (w * h * 4) 0)

/-- Body of the `try` block of `performPerspectiveCrop`
(`src/unnamed/part_000`), with thrown exceptions modelled in `Except` (an
`error` of a called function propagates outward like a thrown exception):
point-count precondition, ordering, dimension computation from the raw
`cropPoints`, the 50/5000 bounds, transform construction, and the pixel
loop. -/
noncomputable def performPerspectiveCropBody
    (perspT : List ℚ → List ℚ → Except String PerspTransform)
    (sourceImageData : ImageData) (sourceWidth sourceHeight : ℤ)
    (cropPoints : List CropPoint) (dpr : ℚ) : Except String OperationResult :=
  if cropPoints.length ≠ 4 then
    .ok ⟨false, "Need exactly 4 crop points. Please show crop points first.",
         none, none⟩
  else
    match orderCropPoints cropPoints with
    | .error e => .error e
    | .ok orderedPoints =>
      match calculateOutputDimensions cropPoints dpr with
      | .error e => .error e
      | .ok dimensions =>
        if dimensions.width < 50 ∨ dimensions.height < 50 then
          .ok ⟨false, "Crop area too small. Minimum dimensions: 50x50 pixels.",
               none, none⟩
        else if dimensions.width > 5000 ∨ dimensions.height > 5000 then
          .ok ⟨false, "Crop area too large. Maximum dimensions: 5000x5000 pixels.",
               none, none⟩
        else
          match perspT (srcCoords orderedPoints) (dstCoords dimensions) with
          | .error e => .error e
          | .ok T =>
            .ok ⟨true, "Perspective crop applied successfully",
                 some ⟨dimensions.width.toNat, dimensions.height.toNat,
                   cropLoopData sourceImageData sourceWidth sourceHeight T dpr
                     dimensions.width.toNat dimensions.height.toNat⟩,
                 some dimensions⟩

/-- From `src/unnamed/part_000` (`performPerspectiveCrop`): the surrounding
`try`/`catch` converts any exception from the body into the structured
failure `Crop failed: ...`. -/
noncomputable def performPerspectiveCrop
    (perspT : List ℚ → List ℚ → Except String PerspTransform)
    (sourceImageData : ImageData) (sourceWidth sourceHeight : ℤ)
    (cropPoints : List CropPoint) (dpr : ℚ) : OperationResult :=
  match performPerspectiveCropBody perspT sourceImageData sourceWidth sourceHeight
      cropPoints dpr with
  | .ok result => result
  | .error e => ⟨false, "Crop failed: " ++ e, none, none⟩

/-! ### Generic list helpers -/

theorem getD_set_self {α : Type} (l : List α) (i : ℕ) (v d : α) (h : i < l.length) :
    (l.set i v).getD i d = v := by
  simp [List.getD_eq_getElem?_getD, List.getElem?_set_self h]

theorem getD_set_ne {α : Type} (l : List α) (i j : ℕ) (v d : α) (h : i ≠ j) :
    (l.set i v).getD j d = l.getD j d := by
  simp [List.getD_eq_getElem?_getD, List.getElem?_set_ne h]

theorem getD_replicate_zero (n i : ℕ) : (List.replicate n (0 : ℕ)).getD i 0 = 0 := by
  simp only [List.getD_eq_getElem?_getD, List.getElem?_replicate]
  split <;> rfl

/-! ### Claim C2 — validateCropPoints and finiteness -/

/-- C2, counterexample: a 4-point array with an `x` coordinate equal to
`+Infinity` is accepted by `validateCropPoints` (the code only filters `NaN`),
contradicting the claim that any array containing an infinite coordinate is
rejected. -/
theorem validateCropPoints_infinite_cex :
    validateCropPoints
        [⟨JSNum.posInf, JSNum.num 0, false⟩, ⟨JSNum.num 1, JSNum.num 0, false⟩,
         ⟨JSNum.num 0, JSNum.num 1, false⟩, ⟨JSNum.num 1, JSNum.num 1, false⟩] = true ∧
      jsIsFinite JSNum.posInf = false := by
  exact ⟨by decide, by decide⟩

/-- C2, amended: `validateCropPoints points` is true iff `points` has length 4
and no coordinate is `NaN`; coordinates equal to `±Infinity` are accepted
(`typeof` is `"number"` and `isNaN` is false on them). -/
theorem validateCropPoints_iff (points : List CropPointJS) :
    validateCropPoints points = true ↔
      points.length = 4 ∧
        ∀ p ∈ points, jsIsNaN p.x = false ∧ jsIsNaN p.y = false := by
  unfold validateCropPoints
  by_cases h : points.length = 4
  · simp [h, List.all_eq_true, jsTypeofIsNumber]
  · simp [h]

/-! ### Claim C10 — updateCropPoint is pure and pointwise -/

/-- C10: `updateCropPoint` returns the input list unchanged when the index is
out of range; otherwise the result has the same length, holds
`(x, y)` with the old `isDragging` flag at `index`, and every other position
is unchanged. (Mutation of the input is impossible in this pure model; the
code likewise copies the array before writing.) -/
theorem updateCropPoint_pointwise (points : List CropPoint) (index : ℤ) (x y : ℚ) :
    ((index < 0 ∨ (points.length : ℤ) ≤ index) →
        updateCropPoint points index x y = points) ∧
    (0 ≤ index → index < (points.length : ℤ) →
        (updateCropPoint points index x y).length = points.length ∧
        (updateCropPoint points index x y).getD index.toNat default =
          { x := x, y := y,
            isDragging := (points.getD index.toNat default).isDragging } ∧
        ∀ j : ℕ, j ≠ index.toNat →
          (updateCropPoint points index x y).getD j default =
            points.getD j default) := by
  constructor
  · intro h
    unfold updateCropPoint
    rw [if_pos h]
  · intro h0 hlt
    have hcond : ¬(index < 0 ∨ (points.length : ℤ) ≤ index) := by omega
    have hn : index.toNat < points.length := by omega
    unfold updateCropPoint
    rw [if_neg hcond]
    refine ⟨List.length_set _ _ _, ?_, ?_⟩
    · rw [getD_set_self _ _ _ _ hn]
    · intro j hj
      rw [getD_set_ne _ _ _ _ _ (Ne.symm hj)]

/-- C10, witness: a concrete in-range update on a two-point list keeps the
dragging flag and replaces the coordinates. -/
theorem updateCropPoint_pointwise_witness :
    (0 : ℤ) ≤ 1 ∧ (1 : ℤ) < (([⟨1, 2, true⟩, ⟨3, 4, false⟩] : List CropPoint).length : ℤ) ∧
      (updateCropPoint [⟨1, 2, true⟩, ⟨3, 4, false⟩] 1 9 9).getD (1 : ℤ).toNat default =
        { x := (9 : ℚ), y := (9 : ℚ),
          isDragging :=
            (([⟨1, 2, true⟩, ⟨3, 4, false⟩] : List CropPoint).getD (1 : ℤ).toNat
                default).isDragging } :=
  ⟨by decide, by decide,
    ((updateCropPoint_pointwise [⟨1, 2, true⟩, ⟨3, 4, false⟩] 1 9 9).2
        (by decide) (by decide)).2.1⟩

theorem list_four {α : Type} (s : List α) (h : s.length = 4) :
    ∃ a b c d, s = [a, b, c, d] := by
  match s, h with
  | [a, b, c, d], _ => exact ⟨a, b, c, d, rfl⟩

theorem pair_of_perm {α : Type} {a b c d : α} (h : [a, b].Perm [c, d]) :
    (a = c ∧ b = d) ∨ (a = d ∧ b = c) := by
  have ha : a ∈ [c, d] := h.subset (by simp)
  rcases List.mem_cons.mp ha with h1 | h1
  · subst h1
    have hb : b ∈ [d] := h.cons_inv.subset (by simp)
    exact Or.inl ⟨rfl, by simpa using hb⟩
  · have h1' : a = d := by simpa using h1
    subst h1'
    have h2 : [a, b].Perm [a, c] := h.trans (List.Perm.swap a c [])
    have hb : b ∈ [c] := h2.cons_inv.subset (by simp)
    exact Or.inr ⟨rfl, by simpa using hb⟩

/-! ### Claim C9 — orderCropPoints on axis-aligned rectangles -/

/-- C9: for an axis-aligned rectangle with corners `(x, y)`, `(x+w, y)`,
`(x, y+h)`, `(x+w, y+h)` (`w, h > 0`), every permutation of the four corners
is ordered by `orderCropPoints` into `[top-left, top-right, bottom-left,
bottom-right]`; this covers both comparator branches (`y`-difference above
the 10-unit threshold, and the near-flat descending-`x` case). -/
theorem orderCropPoints_rect (x y w h : ℚ) (hw : 0 < w) (hh : 0 < h)
    (l : List CropPoint)
    (hperm : l.Perm
      [⟨x, y, false⟩, ⟨x + w, y, false⟩, ⟨x, y + h, false⟩, ⟨x + w, y + h, false⟩]) :
    orderCropPoints l =
      .ok [⟨x, y, false⟩, ⟨x + w, y, false⟩, ⟨x, y + h, false⟩,
           ⟨x + w, y + h, false⟩] := by
  have hlen : l.length = 4 := by simpa using hperm.length_eq
  have hsPerm := (List.perm_insertionSort sumLe l).trans hperm
  have hsSorted := List.sorted_insertionSort sumLe l
  have hsLen : (List.insertionSort sumLe l).length = 4 := by
    rw [List.length_insertionSort]; exact hlen
  obtain ⟨q0, q1, q2, q3, hs⟩ := list_four _ hsLen
  rw [hs] at hsPerm hsSorted
  simp only [List.sorted_cons, List.mem_cons, List.mem_singleton,
    List.not_mem_nil, forall_eq_or_imp, forall_eq] at hsSorted
  obtain ⟨⟨h01, h02, h03, -⟩, ⟨h12, h13, -⟩, ⟨h23, -⟩, -⟩ := hsSorted
  -- the top-left corner has the strictly smallest coordinate sum
  have h0A : sumLe q0 ⟨x, y, false⟩ := by
    have hA : (⟨x, y, false⟩ : CropPoint) ∈ [q0, q1, q2, q3] :=
      hsPerm.mem_iff.mpr (by simp)
    rcases List.mem_cons.mp hA with hA1 | hA
    · rw [← hA1]; exact le_refl _
    rcases List.mem_cons.mp hA with hA1 | hA
    · rw [hA1]; exact h01
    rcases List.mem_cons.mp hA with hA1 | hA
    · rw [hA1]; exact h02
    · have hA1 : (⟨x, y, false⟩ : CropPoint) = q3 := by simpa using hA
      rw [hA1]; exact h03
  have hq0 : q0 = ⟨x, y, false⟩ := by
    have hq0mem : q0 ∈
        [(⟨x, y, false⟩ : CropPoint), ⟨x + w, y, false⟩, ⟨x, y + h, false⟩,
         ⟨x + w, y + h, false⟩] := hsPerm.subset (by simp)
    unfold sumLe at h0A
    rcases List.mem_cons.mp hq0mem with hc | hc
    · exact hc
    rcases List.mem_cons.mp hc with hc | hc
    · exfalso; rw [hc] at h0A; simp at h0A; linarith
    rcases List.mem_cons.mp hc with hc | hc
    · exfalso; rw [hc] at h0A; simp at h0A; linarith
    · have hc' : q0 = (⟨x + w, y + h, false⟩ : CropPoint) := by simpa using hc
      exfalso; rw [hc'] at h0A; simp at h0A; linarith
  -- the bottom-right corner has the strictly largest coordinate sum
  have hD3 : sumLe ⟨x + w, y + h, false⟩ q3 := by
    have hD : (⟨x + w, y + h, false⟩ : CropPoint) ∈ [q0, q1, q2, q3] :=
      hsPerm.mem_iff.mpr (by simp)
    rcases List.mem_cons.mp hD with hD1 | hD
    · rw [hD1]; exact h03
    rcases List.mem_cons.mp hD with hD1 | hD
    · rw [hD1]; exact h13
    rcases List.mem_cons.mp hD with hD1 | hD
    · rw [hD1]; exact h23
    · have hD1 : (⟨x + w, y + h, false⟩ : CropPoint) = q3 := by simpa using hD
      rw [hD1]; exact le_refl _
  have hq3 : q3 = ⟨x + w, y + h, false⟩ := by
    have hq3mem : q3 ∈
        [(⟨x, y, false⟩ : CropPoint), ⟨x + w, y, false⟩, ⟨x, y + h, false⟩,
         ⟨x + w, y + h, false⟩] := hsPerm.subset (by simp)
    unfold sumLe at hD3
    rcases List.mem_cons.mp hq3mem with hc | hc
    · exfalso; rw [hc] at hD3; simp at hD3; linarith
    rcases List.mem_cons.mp hc with hc | hc
    · exfalso; rw [hc] at hD3; simp at hD3; linarith
    rcases List.mem_cons.mp hc with hc | hc
    · exfalso; rw [hc] at hD3; simp at hD3; linarith
    · simpa using hc
  -- the two middle entries are the remaining corners, in one of two orders
  rw [hq0, hq3] at hsPerm
  have hmidD := hsPerm.cons_inv
  have e1 : (List.Perm [q1, q2, (⟨x + w, y + h, false⟩ : CropPoint)]
      ((⟨x + w, y + h, false⟩ : CropPoint) :: [q1, q2])) :=
    (List.Perm.cons q1 (List.Perm.swap (⟨x + w, y + h, false⟩ : CropPoint) q2 [])).trans
      (List.Perm.swap (⟨x + w, y + h, false⟩ : CropPoint) q1 [q2])
  have e2 : (List.Perm
      [(⟨x + w, y, false⟩ : CropPoint), ⟨x, y + h, false⟩, ⟨x + w, y + h, false⟩]
      ((⟨x + w, y + h, false⟩ : CropPoint) :: [⟨x + w, y, false⟩, ⟨x, y + h, false⟩])) :=
    (List.Perm.cons _ (List.Perm.swap (⟨x + w, y + h, false⟩ : CropPoint) _ [])).trans
      (List.Perm.swap (⟨x + w, y + h, false⟩ : CropPoint) _ _)
  have hmid : List.Perm [q1, q2]
      [(⟨x + w, y, false⟩ : CropPoint), ⟨x, y + h, false⟩] :=
    (e1.symm.trans (hmidD.trans e2)).cons_inv
  -- now evaluate orderCropPoints
  unfold orderCropPoints
  rw [if_neg (by omega : ¬l.length ≠ 4)]
  simp only [hs, List.getD_cons_zero, List.getD_cons_succ]
  rw [hq0, hq3]
  rcases pair_of_perm hmid with ⟨hb, hc⟩ | ⟨hb, hc⟩
  · subst hb; subst hc
    have htr : trblLe ⟨x + w, y, false⟩ ⟨x, y + h, false⟩ := by
      show (if |y - (y + h)| > 10 then y - (y + h) else x - (x + w)) ≤ 0
      split_ifs <;> linarith
    have hst : List.insertionSort trblLe
        [(⟨x + w, y, false⟩ : CropPoint), ⟨x, y + h, false⟩] =
        [⟨x + w, y, false⟩, ⟨x, y + h, false⟩] := by
      simp only [List.insertionSort, List.orderedInsert]
      rw [if_pos htr]
    rw [hst]
    simp [List.getD_cons_zero, List.getD_cons_succ]
  · subst hb; subst hc
    have hntr : ¬trblLe ⟨x, y + h, false⟩ ⟨x + w, y, false⟩ := by
      show ¬(if |y + h - y| > 10 then y + h - y else x + w - x) ≤ 0
      split_ifs with habs
      · push_neg; linarith
      · push_neg; linarith
    have hst : List.insertionSort trblLe
        [(⟨x, y + h, false⟩ : CropPoint), ⟨x + w, y, false⟩] =
        [⟨x + w, y, false⟩, ⟨x, y + h, false⟩] := by
      simp only [List.insertionSort, List.orderedInsert]
      rw [if_neg hntr]
    rw [hst]
    simp [List.getD_cons_zero, List.getD_cons_succ]

/-- C9, witness: a concrete scrambled rectangle, both for a tall rectangle
(threshold branch) via the theorem and checking the hypotheses concretely. -/
theorem orderCropPoints_rect_witness :
    (0 : ℚ) < 30 ∧ (0 : ℚ) < 40 ∧
      orderCropPoints
          [⟨30, 40, false⟩, ⟨0, 40, false⟩, ⟨30, 0, false⟩, ⟨0, 0, false⟩] =
        .ok [⟨0, 0, false⟩, ⟨30, 0, false⟩, ⟨0, 40, false⟩, ⟨30, 40, false⟩] := by
  refine ⟨by norm_num, by norm_num, ?_⟩
  have hperm :
      ([⟨30, 40, false⟩, ⟨0, 40, false⟩, ⟨30, 0, false⟩,
        ⟨0, 0, false⟩] : List CropPoint).Perm
      [⟨0, 0, false⟩, ⟨0 + 30, 0, false⟩, ⟨0, 0 + 40, false⟩,
       ⟨0 + 30, 0 + 40, false⟩] := by
    have h := List.reverse_perm
      ([⟨0, 0, false⟩, ⟨30, 0, false⟩, ⟨0, 40, false⟩,
        ⟨30, 40, false⟩] : List CropPoint)
    norm_num
    simpa using h
  have := orderCropPoints_rect 0 0 30 40 (by norm_num) (by norm_num)
    [⟨30, 40, false⟩, ⟨0, 40, false⟩, ⟨30, 0, false⟩, ⟨0, 0, false⟩] hperm
  simpa using this

theorem getD_cons_add_four {d : ℕ} (v0 v1 v2 v3 : ℕ) (tail : List ℕ) (n : ℕ) :
    (v0 :: v1 :: v2 :: v3 :: tail).getD (n + 4) d = tail.getD n d := by
  show (v0 :: v1 :: v2 :: v3 :: tail).getD (n + 1 + 1 + 1 + 1) d = tail.getD n d
  simp only [List.getD_cons_succ]

/-! ### Claim C6 — applyFilters composition policy -/

/-- C6: `applyFilters` is exactly the fixed composition — black-and-white when
enabled (with saturation skipped entirely), otherwise saturation when
non-zero; then always last, brightness/contrast when either is non-zero — and
the all-zero/false default configuration returns the buffer unchanged. -/
theorem applyFilters_composition (imageData : ImageData) (config : ImageFilterConfig) :
    (applyFilters imageData config =
      (let afterTone :=
        if config.blackAndWhite then convertToBlackAndWhite imageData
        else if config.saturation ≠ 0 then applySaturation imageData config.saturation
        else imageData
       if config.brightness ≠ 0 ∨ config.contrast ≠ 0 then
         applyBrightnessContrast afterTone config.brightness config.contrast
       else afterTone)) ∧
    (applyFilters imageData { config with blackAndWhite := true } =
      if config.brightness ≠ 0 ∨ config.contrast ≠ 0 then
        applyBrightnessContrast (convertToBlackAndWhite imageData)
          config.brightness config.contrast
      else convertToBlackAndWhite imageData) ∧
    applyFilters imageData DEFAULT_FILTER_CONFIG = imageData := by
  refine ⟨rfl, ?_, ?_⟩
  · simp [applyFilters]
  · simp [applyFilters, DEFAULT_FILTER_CONFIG]

/-! ### Claim C7 — convertToBlackAndWhite thresholding -/

theorem lt_grayList_length : ∀ (data : List ℕ) (p : ℕ),
    4 * p + 3 < data.length → p < (grayList data).length
  | r :: g :: b :: a :: rest, 0, _ => by simp [grayList]
  | r :: g :: b :: a :: rest, p + 1, hd => by
    have ih := lt_grayList_length rest p (by simp at hd; omega)
    simp [grayList]
    omega
  | [], p, hd => by simp at hd
  | [r], p, hd => by simp at hd
  | [r, g], p, hd => by simp at hd; omega
  | [r, g, b], p, hd => by simp at hd

theorem grayList_getD : ∀ (data : List ℕ) (p : ℕ), 4 * p + 3 < data.length →
    (grayList data).getD p 0 =
      (jroundQ (lumaQ (data.getD (4 * p) 0) (data.getD (4 * p + 1) 0)
        (data.getD (4 * p + 2) 0))).toNat
  | r :: g :: b :: a :: rest, 0, _ => by simp [grayList]
  | r :: g :: b :: a :: rest, p + 1, hd => by
    have ih := grayList_getD rest p (by simp at hd; omega)
    have e0 : 4 * (p + 1) = 4 * p + 4 := by ring
    have e1 : 4 * (p + 1) + 1 = 4 * p + 1 + 4 := by ring
    have e2 : 4 * (p + 1) + 2 = 4 * p + 2 + 4 := by ring
    rw [e2, e1, e0]
    simp only [grayList, getD_cons_add_four, List.getD_cons_succ]
    exact ih
  | [], p, hd => by simp at hd
  | [r], p, hd => by simp at hd
  | [r, g], p, hd => by simp at hd; omega
  | [r, g, b], p, hd => by simp at hd

theorem bwData_getD : ∀ (t : ℚ) (grays data : List ℕ) (p : ℕ),
    p < grays.length → 4 * p + 3 < data.length →
    ((bwData t grays data).getD (4 * p) 0 =
        if ((grays.getD p 0 : ℕ) : ℚ) > t then 255 else 0) ∧
    ((bwData t grays data).getD (4 * p + 1) 0 =
        if ((grays.getD p 0 : ℕ) : ℚ) > t then 255 else 0) ∧
    ((bwData t grays data).getD (4 * p + 2) 0 =
        if ((grays.getD p 0 : ℕ) : ℚ) > t then 255 else 0) ∧
    ((bwData t grays data).getD (4 * p + 3) 0 = data.getD (4 * p + 3) 0)
  | t, gray :: grays, r :: g :: b :: a :: rest, 0, _, _ => by
    simp [bwData]
  | t, gray :: grays, r :: g :: b :: a :: rest, p + 1, hg, hd => by
    have ih := bwData_getD t grays rest p (by simpa using hg) (by simp at hd; omega)
    have e0 : 4 * (p + 1) = 4 * p + 4 := by ring
    have e1 : 4 * (p + 1) + 1 = 4 * p + 1 + 4 := by ring
    have e2 : 4 * (p + 1) + 2 = 4 * p + 2 + 4 := by ring
    have e3 : 4 * (p + 1) + 3 = 4 * p + 3 + 4 := by ring
    rw [e3, e2, e1, e0]
    simp only [bwData, getD_cons_add_four, List.getD_cons_succ]
    exact ih
  | t, [], data, p, hg, hd => by simp at hg
  | t, gray :: grays, [], p, hg, hd => by simp at hd
  | t, gray :: grays, [r], p, hg, hd => by simp at hd
  | t, gray :: grays, [r, g], p, hg, hd => by simp at hd; omega
  | t, gray :: grays, [r, g, b], p, hg, hd => by simp at hd

theorem bwData_length : ∀ (t : ℚ) (grays data : List ℕ),
    (bwData t grays data).length = data.length
  | t, gray :: grays, r :: g :: b :: a :: rest => by
    simp [bwData, bwData_length t grays rest]
  | t, [], data => by cases data <;> rfl
  | t, gray :: grays, [] => rfl
  | t, gray :: grays, [r] => rfl
  | t, gray :: grays, [r, g] => rfl
  | t, gray :: grays, [r, g, b] => rfl

/-- C7 (amended): after `convertToBlackAndWhite`, with `gray` the
`Math.round`ed BT.601 luma of each input pixel and the threshold
`max(128, avg * 0.85)` computed from the mean of these rounded lumas
(`bwThreshold`), every pixel whose rounded luma is `≤ threshold` is exactly
`(0,0,0)` and every other pixel exactly `(255,255,255)` — in particular each
channel is 0 or 255 with `R = G = B` — and every pixel's alpha byte is
unchanged. (The original claim phrased the comparison with the unrounded
luma, which the code does not use; see the counterexample.) -/
theorem convertToBlackAndWhite_pixels (img : ImageData) (p : ℕ)
    (hp : 4 * p + 3 < img.data.length) :
    (convertToBlackAndWhite img).width = img.width ∧
    (convertToBlackAndWhite img).height = img.height ∧
    (convertToBlackAndWhite img).data.length = img.data.length ∧
    ((convertToBlackAndWhite img).data.getD (4 * p) 0 =
      if ((jroundQ (lumaQ (img.data.getD (4 * p) 0) (img.data.getD (4 * p + 1) 0)
            (img.data.getD (4 * p + 2) 0))).toNat : ℚ) > bwThreshold img.data
      then 255 else 0) ∧
    ((convertToBlackAndWhite img).data.getD (4 * p + 1) 0 =
      (convertToBlackAndWhite img).data.getD (4 * p) 0) ∧
    ((convertToBlackAndWhite img).data.getD (4 * p + 2) 0 =
      (convertToBlackAndWhite img).data.getD (4 * p) 0) ∧
    ((convertToBlackAndWhite img).data.getD (4 * p + 3) 0 =
      img.data.getD (4 * p + 3) 0) := by
  have hg := lt_grayList_length img.data p hp
  have h := bwData_getD (bwThreshold img.data) (grayList img.data) img.data p hg hp
  have hgray := grayList_getD img.data p hp
  refine ⟨rfl, rfl, bwData_length _ _ _, ?_, ?_, ?_, ?_⟩
  · show (bwData (bwThreshold img.data) (grayList img.data) img.data).getD (4 * p) 0 = _
    rw [h.1, hgray]
  · show (bwData _ _ _).getD (4 * p + 1) 0 = (bwData _ _ _).getD (4 * p) 0
    rw [h.1, h.2.1]
  · show (bwData _ _ _).getD (4 * p + 2) 0 = (bwData _ _ _).getD (4 * p) 0
    rw [h.1, h.2.2.1]
  · exact h.2.2.2

/-- C7, witness: the amended theorem applied to a concrete one-pixel buffer. -/
theorem convertToBlackAndWhite_pixels_witness :
    4 * 0 + 3 < (ImageData.mk 1 1 [129, 128, 128, 77]).data.length ∧
      (convertToBlackAndWhite ⟨1, 1, [129, 128, 128, 77]⟩).data.getD (4 * 0 + 3) 0 =
        (ImageData.mk 1 1 [129, 128, 128, 77]).data.getD (4 * 0 + 3) 0 :=
  ⟨by simp, (convertToBlackAndWhite_pixels ⟨1, 1, [129, 128, 128, 77]⟩ 0 (by simp)).2.2.2.2.2.2⟩

/-- C7, counterexample: for the one-pixel buffer `[129, 128, 128, 77]` the
exact BT.601 luma is `128.299`, which strictly exceeds the claim's threshold
`max(128, avg * 0.85) = 128` computed from exact lumas, so the claim predicts
a white pixel; the code rounds the luma to 128, compares `128 ≤ 128`, and
produces a black pixel `(0, 0, 0)` (alpha kept). -/
theorem convertToBlackAndWhite_round_cex :
    convertToBlackAndWhite ⟨1, 1, [129, 128, 128, 77]⟩ = ⟨1, 1, [0, 0, 0, 77]⟩ ∧
      lumaQ 129 128 128 > max 128 (lumaQ 129 128 128 * (85 / 100)) := by
  constructor
  · show ImageData.mk 1 1
        (bwData (bwThreshold [129, 128, 128, 77]) (grayList [129, 128, 128, 77])
          [129, 128, 128, 77]) = ⟨1, 1, [0, 0, 0, 77]⟩
    have hgray : grayList [129, 128, 128, 77] = [128] := by
      have h128 : Int.toNat 128 = 128 := rfl
      norm_num [grayList, lumaQ, jroundQ, h128]
    have hthr : bwThreshold [129, 128, 128, 77] = 128 := by
      rw [bwThreshold, hgray]
      norm_num
    rw [hgray, hthr]
    norm_num [bwData]
  · norm_num [lumaQ]

/-! ### Claim C8 — removeBackground segmentation -/

theorem rbData_length : ∀ (target : RGB) (m : ℝ) (data : List ℕ),
    (rbData target m data).length = data.length
  | target, m, r :: g :: b :: a :: rest => by
    simp [rbData, rbData_length target m rest]
  | target, m, [] => rfl
  | target, m, [r] => rfl
  | target, m, [r, g] => rfl
  | target, m, [r, g, b] => rfl

theorem rbData_getD : ∀ (target : RGB) (m : ℝ) (data : List ℕ) (p : ℕ),
    4 * p + 3 < data.length →
    ((rbData target m data).getD (4 * p) 0 = data.getD (4 * p) 0) ∧
    ((rbData target m data).getD (4 * p + 1) 0 = data.getD (4 * p + 1) 0) ∧
    ((rbData target m data).getD (4 * p + 2) 0 = data.getD (4 * p + 2) 0) ∧
    ((rbData target m data).getD (4 * p + 3) 0 =
      if calculateColorDistance (data.getD (4 * p) 0) (data.getD (4 * p + 1) 0)
          (data.getD (4 * p + 2) 0) target.r target.g target.b ≤ m
      then 0 else data.getD (4 * p + 3) 0)
  | target, m, r :: g :: b :: a :: rest, 0, _ => by simp [rbData]
  | target, m, r :: g :: b :: a :: rest, p + 1, hd => by
    have ih := rbData_getD target m rest p (by simp at hd; omega)
    have e0 : 4 * (p + 1) = 4 * p + 4 := by ring
    have e1 : 4 * (p + 1) + 1 = 4 * p + 1 + 4 := by ring
    have e2 : 4 * (p + 1) + 2 = 4 * p + 2 + 4 := by ring
    have e3 : 4 * (p + 1) + 3 = 4 * p + 3 + 4 := by ring
    rw [e3, e2, e1, e0]
    simp only [rbData, getD_cons_add_four]
    exact ih
  | target, m, [], p, hd => by simp at hd
  | target, m, [r], p, hd => by simp at hd
  | target, m, [r, g], p, hd => by simp at hd; omega
  | target, m, [r, g, b], p, hd => by simp at hd

/-- C8: `removeBackground` keeps the dimensions and length, copies every
pixel's R, G and B channel verbatim, and sets a pixel's alpha to 0 exactly
when the Euclidean RGB distance from its colour to the target is at most
`tolerance * 4.41`, keeping the input alpha otherwise. (The code operates on
a fresh copy of the buffer; in this pure embedding the input value is
untouched by construction.) -/
theorem removeBackground_pixels (img : ImageData) (targetColor : RGB)
    (tolerance : ℚ) (p : ℕ) (hp : 4 * p + 3 < img.data.length) :
    (removeBackground img targetColor tolerance).width = img.width ∧
    (removeBackground img targetColor tolerance).height = img.height ∧
    (removeBackground img targetColor tolerance).data.length = img.data.length ∧
    ((removeBackground img targetColor tolerance).data.getD (4 * p) 0 =
      img.data.getD (4 * p) 0) ∧
    ((removeBackground img targetColor tolerance).data.getD (4 * p + 1) 0 =
      img.data.getD (4 * p + 1) 0) ∧
    ((removeBackground img targetColor tolerance).data.getD (4 * p + 2) 0 =
      img.data.getD (4 * p + 2) 0) ∧
    ((removeBackground img targetColor tolerance).data.getD (4 * p + 3) 0 =
      if calculateColorDistance (img.data.getD (4 * p) 0)
          (img.data.getD (4 * p + 1) 0) (img.data.getD (4 * p + 2) 0)
          targetColor.r targetColor.g targetColor.b ≤
          (tolerance : ℝ) * (441 / 100)
      then 0 else img.data.getD (4 * p + 3) 0) := by
  have h := rbData_getD targetColor ((tolerance : ℝ) * (441 / 100)) img.data p hp
  exact ⟨rfl, rfl, rbData_length _ _ _, h.1, h.2.1, h.2.2.1, h.2.2.2⟩

/-- C8, witness: a pixel whose colour equals the target (distance 0) gets
alpha 0 at tolerance 0, via the theorem. -/
theorem removeBackground_pixels_witness :
    4 * 0 + 3 < (ImageData.mk 1 1 [10, 20, 30, 200]).data.length ∧
      (removeBackground ⟨1, 1, [10, 20, 30, 200]⟩ ⟨10, 20, 30⟩ 0).data.getD
          (4 * 0 + 3) 0 = 0 := by
  refine ⟨by simp, ?_⟩
  have h := (removeBackground_pixels ⟨1, 1, [10, 20, 30, 200]⟩ ⟨10, 20, 30⟩ 0 0
    (by simp)).2.2.2.2.2.2
  rw [h, if_pos]
  show calculateColorDistance
      ((ImageData.mk 1 1 [10, 20, 30, 200]).data.getD (4 * 0) 0)
      ((ImageData.mk 1 1 [10, 20, 30, 200]).data.getD (4 * 0 + 1) 0)
      ((ImageData.mk 1 1 [10, 20, 30, 200]).data.getD (4 * 0 + 2) 0)
      (10 : ℕ) (20 : ℕ) (30 : ℕ) ≤ ((0 : ℚ) : ℝ) * (441 / 100)
  have hd0 : (ImageData.mk 1 1 [10, 20, 30, 200]).data.getD (4 * 0) 0 = 10 := by simp
  have hd1 : (ImageData.mk 1 1 [10, 20, 30, 200]).data.getD (4 * 0 + 1) 0 = 20 := by simp
  have hd2 : (ImageData.mk 1 1 [10, 20, 30, 200]).data.getD (4 * 0 + 2) 0 = 30 := by simp
  rw [hd0, hd1, hd2]
  unfold calculateColorDistance
  norm_num

/-! ### Perspective-crop control-flow lemmas -/

theorem orderCropPoints_isOk (points : List CropPoint) (h4 : points.length = 4) :
    ∃ ord, orderCropPoints points = .ok ord := by
  unfold orderCropPoints
  rw [if_neg (by omega : ¬points.length ≠ 4)]
  exact ⟨_, rfl⟩

theorem calculateOutputDimensions_isOk (points : List CropPoint) (dpr : ℚ)
    (h4 : points.length = 4) :
    ∃ d, calculateOutputDimensions points dpr = .ok d := by
  unfold calculateOutputDimensions
  rw [if_neg (by omega : ¬points.length ≠ 4)]
  exact ⟨_, rfl⟩

theorem performPerspectiveCropBody_eval
    (perspT : List ℚ → List ℚ → Except String PerspTransform)
    (sourceImageData : ImageData) (sourceWidth sourceHeight : ℤ)
    (cropPoints : List CropPoint) (dpr : ℚ) (ord : List CropPoint)
    (d : ImageDimensions) (h4 : cropPoints.length = 4)
    (horder : orderCropPoints cropPoints = .ok ord)
    (hdim : calculateOutputDimensions cropPoints dpr = .ok d) :
    performPerspectiveCropBody perspT sourceImageData sourceWidth sourceHeight
        cropPoints dpr =
      if d.width < 50 ∨ d.height < 50 then
        .ok ⟨false, "Crop area too small. Minimum dimensions: 50x50 pixels.",
             none, none⟩
      else if d.width > 5000 ∨ d.height > 5000 then
        .ok ⟨false, "Crop area too large. Maximum dimensions: 5000x5000 pixels.",
             none, none⟩
      else
        match perspT (srcCoords ord) (dstCoords d) with
        | .error e => .error e
        | .ok T =>
          .ok ⟨true, "Perspective crop applied successfully",
               some ⟨d.width.toNat, d.height.toNat,
                 cropLoopData sourceImageData sourceWidth sourceHeight T dpr
                   d.width.toNat d.height.toNat⟩,
               some d⟩ := by
  unfold performPerspectiveCropBody
  rw [if_neg (by omega : ¬cropPoints.length ≠ 4), horder, hdim]

/-! ### Resampling-loop characterisation -/

theorem getD_set4 (d : List ℕ) (B v0 v1 v2 v3 : ℕ) (hlen : B + 3 < d.length) :
    (((((d.set B v0).set (B + 1) v1).set (B + 2) v2).set (B + 3) v3).getD B 0 = v0) ∧
    (((((d.set B v0).set (B + 1) v1).set (B + 2) v2).set (B + 3) v3).getD (B + 1) 0 = v1) ∧
    (((((d.set B v0).set (B + 1) v1).set (B + 2) v2).set (B + 3) v3).getD (B + 2) 0 = v2) ∧
    (((((d.set B v0).set (B + 1) v1).set (B + 2) v2).set (B + 3) v3).getD (B + 3) 0 = v3) := by
  refine ⟨?_, ?_, ?_, ?_⟩
  · rw [getD_set_ne _ _ _ _ _ (by omega), getD_set_ne _ _ _ _ _ (by omega),
      getD_set_ne _ _ _ _ _ (by omega), getD_set_self _ _ _ _ (by omega)]
  · rw [getD_set_ne _ _ _ _ _ (by omega), getD_set_ne _ _ _ _ _ (by omega),
      getD_set_self _ _ _ _ (by simp [List.length_set]; omega)]
  · rw [getD_set_ne _ _ _ _ _ (by omega),
      getD_set_self _ _ _ _ (by simp [List.length_set]; omega)]
  · rw [getD_set_self _ _ _ _ (by simp [List.length_set]; omega)]

section CropLoop

variable (src : ImageData) (sw sh : ℤ) (T : PerspTransform) (dpr : ℚ) (w : ℕ)

theorem writePix_length (d : List ℕ) (x y : ℕ) :
    (writePix src sw sh T dpr w d x y).length = d.length := by
  simp only [writePix]
  split <;> simp

theorem writePix_getD_ne (d : List ℕ) (x y j : ℕ)
    (hj : ∀ c, c < 4 → j ≠ (y * w + x) * 4 + c) :
    (writePix src sw sh T dpr w d x y).getD j 0 = d.getD j 0 := by
  have hB : (y * w + x) * 4 ≠ j := by have := hj 0 (by omega); omega
  have hB1 : (y * w + x) * 4 + 1 ≠ j := by have := hj 1 (by omega); omega
  have hB2 : (y * w + x) * 4 + 2 ≠ j := by have := hj 2 (by omega); omega
  have hB3 : (y * w + x) * 4 + 3 ≠ j := by have := hj 3 (by omega); omega
  simp only [writePix]
  split
  · rw [getD_set_ne _ _ _ _ _ hB3, getD_set_ne _ _ _ _ _ hB2,
      getD_set_ne _ _ _ _ _ hB1, getD_set_ne _ _ _ _ _ hB]
  · rw [getD_set_ne _ _ _ _ _ hB3]

theorem writePix_getD_hit (d : List ℕ) (x y : ℕ)
    (hlen : (y * w + x) * 4 + 3 < d.length) :
    ((0 ≤ jroundQ ((T.transformInverse (x : ℚ) (y : ℚ)).1 * dpr) ∧
      jroundQ ((T.transformInverse (x : ℚ) (y : ℚ)).1 * dpr) < sw ∧
      0 ≤ jroundQ ((T.transformInverse (x : ℚ) (y : ℚ)).2 * dpr) ∧
      jroundQ ((T.transformInverse (x : ℚ) (y : ℚ)).2 * dpr) < sh) →
      ∀ c, c < 4 →
        (writePix src sw sh T dpr w d x y).getD ((y * w + x) * 4 + c) 0 =
          src.data.getD
            (((jroundQ ((T.transformInverse (x : ℚ) (y : ℚ)).2 * dpr) * sw +
               jroundQ ((T.transformInverse (x : ℚ) (y : ℚ)).1 * dpr)) * 4).toNat + c) 0) ∧
    (¬(0 ≤ jroundQ ((T.transformInverse (x : ℚ) (y : ℚ)).1 * dpr) ∧
      jroundQ ((T.transformInverse (x : ℚ) (y : ℚ)).1 * dpr) < sw ∧
      0 ≤ jroundQ ((T.transformInverse (x : ℚ) (y : ℚ)).2 * dpr) ∧
      jroundQ ((T.transformInverse (x : ℚ) (y : ℚ)).2 * dpr) < sh) →
      ((writePix src sw sh T dpr w d x y).getD ((y * w + x) * 4 + 3) 0 = 0 ∧
       ∀ c, c < 3 →
        (writePix src sw sh T dpr w d x y).getD ((y * w + x) * 4 + c) 0 =
          d.getD ((y * w + x) * 4 + c) 0)) := by
  constructor
  · intro hcond c hc
    simp only [writePix]
    rw [if_pos hcond]
    have h4 := getD_set4 d ((y * w + x) * 4)
      (src.data.getD (((jroundQ ((T.transformInverse (x : ℚ) (y : ℚ)).2 * dpr) * sw +
        jroundQ ((T.transformInverse (x : ℚ) (y : ℚ)).1 * dpr)) * 4).toNat) 0)
      (src.data.getD (((jroundQ ((T.transformInverse (x : ℚ) (y : ℚ)).2 * dpr) * sw +
        jroundQ ((T.transformInverse (x : ℚ) (y : ℚ)).1 * dpr)) * 4).toNat + 1) 0)
      (src.data.getD (((jroundQ ((T.transformInverse (x : ℚ) (y : ℚ)).2 * dpr) * sw +
        jroundQ ((T.transformInverse (x : ℚ) (y : ℚ)).1 * dpr)) * 4).toNat + 2) 0)
      (src.data.getD (((jroundQ ((T.transformInverse (x : ℚ) (y : ℚ)).2 * dpr) * sw +
        jroundQ ((T.transformInverse (x : ℚ) (y : ℚ)).1 * dpr)) * 4).toNat + 3) 0) hlen
    interval_cases c
    · simpa using h4.1
    · exact h4.2.1
    · exact h4.2.2.1
    · exact h4.2.2.2
  · intro hcond
    simp only [writePix]
    rw [if_neg hcond]
    refine ⟨getD_set_self _ _ _ _ (by omega), ?_⟩
    intro c hc
    exact getD_set_ne _ _ _ _ _ (by omega)

theorem innerFold_length (y : ℕ) : ∀ (xs : List ℕ) (d : List ℕ),
    (xs.foldl (fun d x => writePix src sw sh T dpr w d x y) d).length = d.length
  | [], d => rfl
  | x :: xs, d => by
    rw [List.foldl_cons, innerFold_length y xs _, writePix_length]

theorem innerFold_frame (y y₀ x₀ : ℕ) : ∀ (xs : List ℕ) (d : List ℕ),
    (∀ x ∈ xs, y * w + x ≠ y₀ * w + x₀) → ∀ c, c < 4 →
    (xs.foldl (fun d x => writePix src sw sh T dpr w d x y) d).getD
        ((y₀ * w + x₀) * 4 + c) 0 =
      d.getD ((y₀ * w + x₀) * 4 + c) 0
  | [], d, _, c, hc => rfl
  | x :: xs, d, hne, c, hc => by
    rw [List.foldl_cons,
      innerFold_frame y y₀ x₀ xs _ (fun a ha => hne a (List.mem_cons_of_mem _ ha)) c hc,
      writePix_getD_ne]
    intro c' hc'
    have := hne x (List.mem_cons_self _ _)
    omega

theorem outerFold_length (h : ℕ) : ∀ (ys : List ℕ) (d : List ℕ),
    (ys.foldl (fun d y => (List.range w).foldl
      (fun d x => writePix src sw sh T dpr w d x y) d) d).length = d.length
  | [], d => rfl
  | y :: ys, d => by
    rw [List.foldl_cons, outerFold_length h ys _, innerFold_length]

theorem pixel_id_ne {x w x₀ y y₀ : ℕ} (hxw : x < w) (hx0 : x₀ < w) (hyy : y ≠ y₀) :
    y * w + x ≠ y₀ * w + x₀ := by
  rcases Nat.lt_or_ge y y₀ with hlt | hge
  · have h1 : (y + 1) * w ≤ y₀ * w := Nat.mul_le_mul_right w hlt
    have h2 : (y + 1) * w = y * w + w := by ring
    omega
  · have hgt : y₀ < y := by omega
    have h1 : (y₀ + 1) * w ≤ y * w := Nat.mul_le_mul_right w hgt
    have h2 : (y₀ + 1) * w = y₀ * w + w := by ring
    omega

theorem outerFold_frame (y₀ x₀ : ℕ) (hx0 : x₀ < w) : ∀ (ys : List ℕ) (d : List ℕ),
    (∀ y ∈ ys, y ≠ y₀) → ∀ c, c < 4 →
    (ys.foldl (fun d y => (List.range w).foldl
        (fun d x => writePix src sw sh T dpr w d x y) d) d).getD
      ((y₀ * w + x₀) * 4 + c) 0 = d.getD ((y₀ * w + x₀) * 4 + c) 0
  | [], d, _, c, hc => rfl
  | y :: ys, d, hne, c, hc => by
    rw [List.foldl_cons,
      outerFold_frame y₀ x₀ hx0 ys _ (fun a ha => hne a (List.mem_cons_of_mem _ ha)) c hc,
      innerFold_frame]
    · intro x hxmem
      exact pixel_id_ne (List.mem_range.mp hxmem) hx0 (hne y (List.mem_cons_self _ _))
    · exact hc

theorem innerFold_row (y₀ x₀ : ℕ) (hx : x₀ < w) (d : List ℕ)
    (hlen : (y₀ * w + x₀) * 4 + 3 < d.length) :
    ((0 ≤ jroundQ ((T.transformInverse (x₀ : ℚ) (y₀ : ℚ)).1 * dpr) ∧
      jroundQ ((T.transformInverse (x₀ : ℚ) (y₀ : ℚ)).1 * dpr) < sw ∧
      0 ≤ jroundQ ((T.transformInverse (x₀ : ℚ) (y₀ : ℚ)).2 * dpr) ∧
      jroundQ ((T.transformInverse (x₀ : ℚ) (y₀ : ℚ)).2 * dpr) < sh) →
      ∀ c, c < 4 →
        ((List.range w).foldl (fun d x => writePix src sw sh T dpr w d x y₀) d).getD
            ((y₀ * w + x₀) * 4 + c) 0 =
          src.data.getD
            (((jroundQ ((T.transformInverse (x₀ : ℚ) (y₀ : ℚ)).2 * dpr) * sw +
               jroundQ ((T.transformInverse (x₀ : ℚ) (y₀ : ℚ)).1 * dpr)) * 4).toNat + c) 0) ∧
    (¬(0 ≤ jroundQ ((T.transformInverse (x₀ : ℚ) (y₀ : ℚ)).1 * dpr) ∧
      jroundQ ((T.transformInverse (x₀ : ℚ) (y₀ : ℚ)).1 * dpr) < sw ∧
      0 ≤ jroundQ ((T.transformInverse (x₀ : ℚ) (y₀ : ℚ)).2 * dpr) ∧
      jroundQ ((T.transformInverse (x₀ : ℚ) (y₀ : ℚ)).2 * dpr) < sh) →
      (((List.range w).foldl (fun d x => writePix src sw sh T dpr w d x y₀) d).getD
          ((y₀ * w + x₀) * 4 + 3) 0 = 0 ∧
       ∀ c, c < 3 →
        ((List.range w).foldl (fun d x => writePix src sw sh T dpr w d x y₀) d).getD
            ((y₀ * w + x₀) * 4 + c) 0 = d.getD ((y₀ * w + x₀) * 4 + c) 0)) := by
  obtain ⟨k, hk⟩ : ∃ k, w = x₀ + 1 + k := ⟨w - x₀ - 1, by omega⟩
  have hsplit : List.range w = List.range' 0 x₀ ++ x₀ :: List.range' (x₀ + 1) k := by
    rw [List.range_eq_range', show w = k + 1 + x₀ by omega, ← List.range'_append_1]
    simp [List.range'_succ]
  rw [hsplit]
  rw [List.foldl_append, List.foldl_cons]
  have hpre : ∀ c, c < 4 →
      ((List.range' 0 x₀).foldl (fun d x => writePix src sw sh T dpr w d x y₀) d).getD
          ((y₀ * w + x₀) * 4 + c) 0 = d.getD ((y₀ * w + x₀) * 4 + c) 0 := by
    intro c hc
    refine innerFold_frame src sw sh T dpr w y₀ y₀ x₀ _ d ?_ c hc
    intro a ha
    obtain ⟨i, hi, rfl⟩ := List.mem_range'.mp ha
    omega
  have hprelen :
      ((List.range' 0 x₀).foldl (fun d x => writePix src sw sh T dpr w d x y₀) d).length =
        d.length := innerFold_length src sw sh T dpr w y₀ _ d
  have hhit := writePix_getD_hit src sw sh T dpr w
    ((List.range' 0 x₀).foldl (fun d x => writePix src sw sh T dpr w d x y₀) d) x₀ y₀
    (by rw [hprelen]; exact hlen)
  have hsuf : ∀ (d' : List ℕ) (c : ℕ), c < 4 →
      ((List.range' (x₀ + 1) k).foldl (fun d x => writePix src sw sh T dpr w d x y₀) d').getD
          ((y₀ * w + x₀) * 4 + c) 0 = d'.getD ((y₀ * w + x₀) * 4 + c) 0 := by
    intro d' c hc
    refine innerFold_frame src sw sh T dpr w y₀ y₀ x₀ _ d' ?_ c hc
    intro a ha
    obtain ⟨i, hi, rfl⟩ := List.mem_range'.mp ha
    omega
  constructor
  · intro hcond c hc
    rw [hsuf _ c hc, hhit.1 hcond c hc]
  · intro hcond
    constructor
    · rw [hsuf _ 3 (by omega), (hhit.2 hcond).1]
    · intro c hc
      rw [hsuf _ c (by omega), (hhit.2 hcond).2 c hc, hpre c (by omega)]

theorem cropLoopData_length (h : ℕ) :
    (cropLoopData src sw sh T dpr w h).length = w * h * 4 := by
  unfold cropLoopData
  rw [outerFold_length src sw sh T dpr w h, List.length_replicate]

theorem cropLoopData_spec (h : ℕ) (x₀ y₀ : ℕ) (hx : x₀ < w) (hy : y₀ < h) :
    ((0 ≤ jroundQ ((T.transformInverse (x₀ : ℚ) (y₀ : ℚ)).1 * dpr) ∧
      jroundQ ((T.transformInverse (x₀ : ℚ) (y₀ : ℚ)).1 * dpr) < sw ∧
      0 ≤ jroundQ ((T.transformInverse (x₀ : ℚ) (y₀ : ℚ)).2 * dpr) ∧
      jroundQ ((T.transformInverse (x₀ : ℚ) (y₀ : ℚ)).2 * dpr) < sh) →
      ∀ c, c < 4 →
        (cropLoopData src sw sh T dpr w h).getD ((y₀ * w + x₀) * 4 + c) 0 =
          src.data.getD
            (((jroundQ ((T.transformInverse (x₀ : ℚ) (y₀ : ℚ)).2 * dpr) * sw +
               jroundQ ((T.transformInverse (x₀ : ℚ) (y₀ : ℚ)).1 * dpr)) * 4).toNat + c) 0) ∧
    (¬(0 ≤ jroundQ ((T.transformInverse (x₀ : ℚ) (y₀ : ℚ)).1 * dpr) ∧
      jroundQ ((T.transformInverse (x₀ : ℚ) (y₀ : ℚ)).1 * dpr) < sw ∧
      0 ≤ jroundQ ((T.transformInverse (x₀ : ℚ) (y₀ : ℚ)).2 * dpr) ∧
      jroundQ ((T.transformInverse (x₀ : ℚ) (y₀ : ℚ)).2 * dpr) < sh) →
      ∀ c, c < 4 →
        (cropLoopData src sw sh T dpr w h).getD ((y₀ * w + x₀) * 4 + c) 0 = 0) := by
  have hB : (y₀ * w + x₀) * 4 + 3 < w * h * 4 := by
    have h1 : (y₀ + 1) * w ≤ h * w := Nat.mul_le_mul_right w hy
    have h2 : (y₀ + 1) * w = y₀ * w + w := by ring
    have h3 : h * w = w * h := Nat.mul_comm h w
    omega
  obtain ⟨m, hm⟩ : ∃ m, h = y₀ + 1 + m := ⟨h - y₀ - 1, by omega⟩
  have hsplit : List.range h = List.range' 0 y₀ ++ y₀ :: List.range' (y₀ + 1) m := by
    rw [List.range_eq_range', show h = m + 1 + y₀ by omega, ← List.range'_append_1]
    simp [List.range'_succ]
  unfold cropLoopData
  rw [hsplit, List.foldl_append, List.foldl_cons]
  have hpre : ∀ c, c < 4 →
      ((List.range' 0 y₀).foldl (fun d y => (List.range w).foldl
          (fun d x => writePix src sw sh T dpr w d x y) d)
        (List.replicate (w * h * 4) 0)).getD ((y₀ * w + x₀) * 4 + c) 0 = 0 := by
    intro c hc
    rw [outerFold_frame src sw sh T dpr w y₀ x₀ hx _ _ ?_ c hc, getD_replicate_zero]
    intro a ha
    obtain ⟨i, hi, rfl⟩ := List.mem_range'.mp ha
    omega
  have hprelen :
      ((List.range' 0 y₀).foldl (fun d y => (List.range w).foldl
          (fun d x => writePix src sw sh T dpr w d x y) d)
        (List.replicate (w * h * 4) 0)).length = w * h * 4 := by
    rw [outerFold_length src sw sh T dpr w h, List.length_replicate]
  have hrow := innerFold_row src sw sh T dpr w y₀ x₀ hx
    ((List.range' 0 y₀).foldl (fun d y => (List.range w).foldl
        (fun d x => writePix src sw sh T dpr w d x y) d)
      (List.replicate (w * h * 4) 0))
    (by rw [hprelen]; exact hB)
  have hsuf : ∀ (d' : List ℕ) (c : ℕ), c < 4 →
      ((List.range' (y₀ + 1) m).foldl (fun d y => (List.range w).foldl
          (fun d x => writePix src sw sh T dpr w d x y) d) d').getD
        ((y₀ * w + x₀) * 4 + c) 0 = d'.getD ((y₀ * w + x₀) * 4 + c) 0 := by
    intro d' c hc
    refine outerFold_frame src sw sh T dpr w y₀ x₀ hx _ d' ?_ c hc
    intro a ha
    obtain ⟨i, hi, rfl⟩ := List.mem_range'.mp ha
    omega
  constructor
  · intro hcond c hc
    rw [hsuf _ c hc, hrow.1 hcond c hc]
  · intro hcond c hc
    rcases Nat.lt_or_ge c 3 with hc3 | hc3
    · rw [hsuf _ c hc, (hrow.2 hcond).2 c hc3, hpre c hc]
    · have hc3' : c = 3 := by omega
      subst hc3'
      rw [hsuf _ 3 (by omega), (hrow.2 hcond).1]

end CropLoop

/-! ### Evaluation helpers for square roots and rounding -/

theorem calculateDistance_eval (p1 p2 : CropPoint) (c : ℚ) (h0 : 0 ≤ c)
    (hc : c ^ 2 = (p2.x - p1.x) ^ 2 + (p2.y - p1.y) ^ 2) :
    calculateDistance p1 p2 = (c : ℝ) := by
  unfold calculateDistance
  rw [← hc]
  push_cast
  exact Real.sqrt_sq (by exact_mod_cast h0)

theorem jround_ratCast (q : ℚ) : jround ((q : ℚ) : ℝ) = ⌊q + 1 / 2⌋ := by
  unfold jround
  rw [show ((q : ℚ) : ℝ) + 1 / 2 = ((q + 1 / 2 : ℚ) : ℝ) by push_cast; ring]
  exact Rat.floor_cast _

theorem calculateOutputDimensions_eval (p0 p1 p2 p3 : CropPoint) (dpr : ℚ)
    (dt db dl dr : ℚ) (ht0 : 0 ≤ dt) (hb0 : 0 ≤ db) (hl0 : 0 ≤ dl) (hr0 : 0 ≤ dr)
    (ht : dt ^ 2 = (p1.x - p0.x) ^ 2 + (p1.y - p0.y) ^ 2)
    (hb : db ^ 2 = (p3.x - p2.x) ^ 2 + (p3.y - p2.y) ^ 2)
    (hl : dl ^ 2 = (p2.x - p0.x) ^ 2 + (p2.y - p0.y) ^ 2)
    (hr : dr ^ 2 = (p3.x - p1.x) ^ 2 + (p3.y - p1.y) ^ 2) :
    calculateOutputDimensions [p0, p1, p2, p3] dpr =
      .ok ⟨⌊max dt db * dpr + 1 / 2⌋, ⌊max dl dr * dpr + 1 / 2⌋⟩ := by
  unfold calculateOutputDimensions
  rw [if_neg (by simp)]
  simp only [List.getD_cons_zero, List.getD_cons_succ]
  rw [calculateDistance_eval p0 p1 dt ht0 ht, calculateDistance_eval p2 p3 db hb0 hb,
    calculateDistance_eval p0 p2 dl hl0 hl, calculateDistance_eval p1 p3 dr hr0 hr,
    ← Rat.cast_max, ← Rat.cast_max,
    show ((max dt db : ℚ) : ℝ) * (dpr : ℚ) = ((max dt db * dpr : ℚ) : ℝ) by push_cast; ring,
    show ((max dl dr : ℚ) : ℝ) * (dpr : ℚ) = ((max dl dr * dpr : ℚ) : ℝ) by push_cast; ring,
    jround_ratCast, jround_ratCast]

/-! ### Claim C5 — pixel semantics of a successful perspective crop -/

/-- C5: on the success path, the returned buffer holds, at each destination
pixel `(x, y)`, the four source channels of the source pixel obtained by
inverse-mapping, scaling by `dpr` and rounding — verbatim — whenever that
source position lies within `(sourceWidth, sourceHeight)`, and exactly
`(0, 0, 0, 0)` (fully transparent, zero RGB) otherwise. -/
theorem performPerspectiveCrop_pixels
    (perspT : List ℚ → List ℚ → Except String PerspTransform)
    (src : ImageData) (sw sh : ℤ) (cropPoints : List CropPoint) (dpr : ℚ)
    (ord : List CropPoint) (d : ImageDimensions) (T : PerspTransform) (x y : ℕ)
    (h4 : cropPoints.length = 4)
    (horder : orderCropPoints cropPoints = .ok ord)
    (hdim : calculateOutputDimensions cropPoints dpr = .ok d)
    (hsmall : ¬(d.width < 50 ∨ d.height < 50))
    (hlarge : ¬(d.width > 5000 ∨ d.height > 5000))
    (hT : perspT (srcCoords ord) (dstCoords d) = .ok T)
    (hx : x < d.width.toNat) (hy : y < d.height.toNat) :
    (performPerspectiveCrop perspT src sw sh cropPoints dpr).success = true ∧
    ∃ buf, (performPerspectiveCrop perspT src sw sh cropPoints dpr).imageData = some buf ∧
      buf.data.length = d.width.toNat * d.height.toNat * 4 ∧
      ((0 ≤ jroundQ ((T.transformInverse (x : ℚ) (y : ℚ)).1 * dpr) ∧
        jroundQ ((T.transformInverse (x : ℚ) (y : ℚ)).1 * dpr) < sw ∧
        0 ≤ jroundQ ((T.transformInverse (x : ℚ) (y : ℚ)).2 * dpr) ∧
        jroundQ ((T.transformInverse (x : ℚ) (y : ℚ)).2 * dpr) < sh) →
        ∀ c, c < 4 →
          buf.data.getD ((y * d.width.toNat + x) * 4 + c) 0 =
            src.data.getD
              (((jroundQ ((T.transformInverse (x : ℚ) (y : ℚ)).2 * dpr) * sw +
                 jroundQ ((T.transformInverse (x : ℚ) (y : ℚ)).1 * dpr)) * 4).toNat + c) 0) ∧
      (¬(0 ≤ jroundQ ((T.transformInverse (x : ℚ) (y : ℚ)).1 * dpr) ∧
        jroundQ ((T.transformInverse (x : ℚ) (y : ℚ)).1 * dpr) < sw ∧
        0 ≤ jroundQ ((T.transformInverse (x : ℚ) (y : ℚ)).2 * dpr) ∧
        jroundQ ((T.transformInverse (x : ℚ) (y : ℚ)).2 * dpr) < sh) →
        ∀ c, c < 4 →
          buf.data.getD ((y * d.width.toNat + x) * 4 + c) 0 = 0) := by
  have hbody := performPerspectiveCropBody_eval perspT src sw sh cropPoints dpr ord d
    h4 horder hdim
  unfold performPerspectiveCrop
  rw [hbody, if_neg hsmall, if_neg hlarge, hT]
  have hspec := cropLoopData_spec src sw sh T dpr d.width.toNat d.height.toNat x y hx hy
  exact ⟨rfl, _, rfl, cropLoopData_length src sw sh T dpr _ _, hspec.1, hspec.2⟩

/-- C5, witness: identity transform on a 100-by-100 square quadrilateral with
a one-pixel source: destination pixel `(0, 0)` maps in bounds and receives the
four source bytes. -/
theorem performPerspectiveCrop_pixels_witness :
    orderCropPoints
        [⟨0, 0, false⟩, ⟨100, 0, false⟩, ⟨0, 100, false⟩, ⟨100, 100, false⟩] =
      .ok [⟨0, 0, false⟩, ⟨100, 0, false⟩, ⟨0, 100, false⟩, ⟨100, 100, false⟩] ∧
    calculateOutputDimensions
        [⟨0, 0, false⟩, ⟨100, 0, false⟩, ⟨0, 100, false⟩, ⟨100, 100, false⟩] 1 =
      .ok ⟨100, 100⟩ ∧
    ∃ buf,
      (performPerspectiveCrop (fun _ _ => .ok ⟨fun a b => (a, b)⟩) ⟨1, 1, [9, 8, 7, 6]⟩
          1 1 [⟨0, 0, false⟩, ⟨100, 0, false⟩, ⟨0, 100, false⟩, ⟨100, 100, false⟩]
          1).imageData = some buf ∧
      buf.data.getD ((0 * (100 : ℤ).toNat + 0) * 4 + 0) 0 =
        (ImageData.mk 1 1 [9, 8, 7, 6]).data.getD
          (((jroundQ (((PerspTransform.mk fun a b => (a, b)).transformInverse
              ((0 : ℕ) : ℚ) ((0 : ℕ) : ℚ)).2 * 1) * 1 +
             jroundQ (((PerspTransform.mk fun a b => (a, b)).transformInverse
              ((0 : ℕ) : ℚ) ((0 : ℕ) : ℚ)).1 * 1)) * 4).toNat + 0) 0 := by
  have horder : orderCropPoints
      [⟨0, 0, false⟩, ⟨100, 0, false⟩, ⟨0, 100, false⟩, ⟨100, 100, false⟩] =
      .ok [⟨0, 0, false⟩, ⟨100, 0, false⟩, ⟨0, 100, false⟩, ⟨100, 100, false⟩] := by
    norm_num [orderCropPoints, List.insertionSort, List.orderedInsert, sumLe, trblLe,
      trblCompare]
  have hdim : calculateOutputDimensions
      [⟨0, 0, false⟩, ⟨100, 0, false⟩, ⟨0, 100, false⟩, ⟨100, 100, false⟩] 1 =
      .ok ⟨100, 100⟩ := by
    have := calculateOutputDimensions_eval ⟨0, 0, false⟩ ⟨100, 0, false⟩
      ⟨0, 100, false⟩ ⟨100, 100, false⟩ 1 100 100 100 100 (by norm_num) (by norm_num)
      (by norm_num) (by norm_num) (by norm_num) (by norm_num) (by norm_num) (by norm_num)
    rw [this]
    norm_num
  refine ⟨horder, hdim, ?_⟩
  have h := performPerspectiveCrop_pixels (fun _ _ => .ok ⟨fun a b => (a, b)⟩)
    ⟨1, 1, [9, 8, 7, 6]⟩ 1 1
    [⟨0, 0, false⟩, ⟨100, 0, false⟩, ⟨0, 100, false⟩, ⟨100, 100, false⟩] 1
    [⟨0, 0, false⟩, ⟨100, 0, false⟩, ⟨0, 100, false⟩, ⟨100, 100, false⟩]
    ⟨100, 100⟩ ⟨fun a b => (a, b)⟩ 0 0 (by simp) horder hdim
    (by norm_num) (by norm_num) rfl (by norm_num) (by norm_num)
  obtain ⟨-, buf, hbuf, -, hin, -⟩ := h
  refine ⟨buf, hbuf, ?_⟩
  exact hin (by norm_num [jroundQ]) 0 (by norm_num)

/-! ### Claim C4 — size-bound rejection -/

/-- C4: when the computed output dimensions fall below the 50-pixel minimum
(checked first), `performPerspectiveCrop` returns the structured too-small
failure with no output buffer and no dimensions; when they pass the minimum
but exceed the 5000-pixel maximum, it returns the too-large failure. It
rejects — the result is a plain failure record, never a clamped success and
never an exception. -/
theorem performPerspectiveCrop_bounds
    (perspT : List ℚ → List ℚ → Except String PerspTransform)
    (src : ImageData) (sw sh : ℤ) (cropPoints : List CropPoint) (dpr : ℚ)
    (ord : List CropPoint) (d : ImageDimensions)
    (h4 : cropPoints.length = 4)
    (horder : orderCropPoints cropPoints = .ok ord)
    (hdim : calculateOutputDimensions cropPoints dpr = .ok d) :
    ((d.width < 50 ∨ d.height < 50) →
      performPerspectiveCrop perspT src sw sh cropPoints dpr =
        ⟨false, "Crop area too small. Minimum dimensions: 50x50 pixels.",
         none, none⟩) ∧
    (¬(d.width < 50 ∨ d.height < 50) → (d.width > 5000 ∨ d.height > 5000) →
      performPerspectiveCrop perspT src sw sh cropPoints dpr =
        ⟨false, "Crop area too large. Maximum dimensions: 5000x5000 pixels.",
         none, none⟩) := by
  have hbody := performPerspectiveCropBody_eval perspT src sw sh cropPoints dpr ord d
    h4 horder hdim
  unfold performPerspectiveCrop
  rw [hbody]
  constructor
  · intro hs
    rw [if_pos hs]
  · intro hs hl
    rw [if_neg hs, if_pos hl]

/-- C4, witness: a 10-by-10 square quadrilateral is rejected as too small. -/
theorem performPerspectiveCrop_bounds_witness :
    calculateOutputDimensions
        [⟨0, 0, false⟩, ⟨10, 0, false⟩, ⟨0, 10, false⟩, ⟨10, 10, false⟩] 1 =
      .ok ⟨10, 10⟩ ∧
    ((10 : ℤ) < 50 ∨ (10 : ℤ) < 50) ∧
    performPerspectiveCrop (fun _ _ => .ok ⟨fun a b => (a, b)⟩) ⟨1, 1, [0, 0, 0, 0]⟩
        1 1 [⟨0, 0, false⟩, ⟨10, 0, false⟩, ⟨0, 10, false⟩, ⟨10, 10, false⟩] 1 =
      ⟨false, "Crop area too small. Minimum dimensions: 50x50 pixels.",
       none, none⟩ := by
  have horder : orderCropPoints
      [⟨0, 0, false⟩, ⟨10, 0, false⟩, ⟨0, 10, false⟩, ⟨10, 10, false⟩] =
      .ok [⟨0, 0, false⟩, ⟨10, 0, false⟩, ⟨0, 10, false⟩, ⟨10, 10, false⟩] := by
    norm_num [orderCropPoints, List.insertionSort, List.orderedInsert, sumLe, trblLe,
      trblCompare]
  have hdim : calculateOutputDimensions
      [⟨0, 0, false⟩, ⟨10, 0, false⟩, ⟨0, 10, false⟩, ⟨10, 10, false⟩] 1 =
      .ok ⟨10, 10⟩ := by
    rw [calculateOutputDimensions_eval ⟨0, 0, false⟩ ⟨10, 0, false⟩ ⟨0, 10, false⟩
      ⟨10, 10, false⟩ 1 10 10 10 10 (by norm_num) (by norm_num) (by norm_num)
      (by norm_num) (by norm_num) (by norm_num) (by norm_num) (by norm_num)]
    norm_num
  refine ⟨hdim, by norm_num, ?_⟩
  exact (performPerspectiveCrop_bounds (fun _ _ => .ok ⟨fun a b => (a, b)⟩)
    ⟨1, 1, [0, 0, 0, 0]⟩ 1 1 _ 1 _ ⟨10, 10⟩ (by simp) horder hdim).1 (by norm_num)

/-! ### Claim C3 — transform-construction failure is caught -/

/-- C3: whenever the (spec-modelled) transform constructor fails — as the
specification says it does on degenerate/collinear quadrilaterals — on an
input that passed the point-count and size checks, `performPerspectiveCrop`
returns the structured failure `Crop failed: ...` produced by its `catch`
block: a `{success := false, message := ...}` record, never a success and
never a propagated exception. -/
theorem performPerspectiveCrop_catches
    (perspT : List ℚ → List ℚ → Except String PerspTransform)
    (src : ImageData) (sw sh : ℤ) (cropPoints : List CropPoint) (dpr : ℚ)
    (ord : List CropPoint) (d : ImageDimensions) (e : String)
    (h4 : cropPoints.length = 4)
    (horder : orderCropPoints cropPoints = .ok ord)
    (hdim : calculateOutputDimensions cropPoints dpr = .ok d)
    (hsmall : ¬(d.width < 50 ∨ d.height < 50))
    (hlarge : ¬(d.width > 5000 ∨ d.height > 5000))
    (hfail : perspT (srcCoords ord) (dstCoords d) = .error e) :
    performPerspectiveCrop perspT src sw sh cropPoints dpr =
      ⟨false, "Crop failed: " ++ e, none, none⟩ := by
  have hbody := performPerspectiveCropBody_eval perspT src sw sh cropPoints dpr ord d
    h4 horder hdim
  unfold performPerspectiveCrop
  rw [hbody, if_neg hsmall, if_neg hlarge, hfail]

/-- C3, witness: four collinear points whose raw-order dimensions pass the
bounds; a constructor failing with a singular-matrix message is converted to
the structured failure. -/
theorem performPerspectiveCrop_catches_witness :
    calculateOutputDimensions
        [⟨0, 0, false⟩, ⟨100, 0, false⟩, ⟨200, 0, false⟩, ⟨300, 0, false⟩] 1 =
      .ok ⟨100, 200⟩ ∧
    performPerspectiveCrop (fun _ _ => .error "Matrix is singular")
        ⟨1, 1, [0, 0, 0, 0]⟩ 1 1
        [⟨0, 0, false⟩, ⟨100, 0, false⟩, ⟨200, 0, false⟩, ⟨300, 0, false⟩] 1 =
      ⟨false, "Crop failed: Matrix is singular", none, none⟩ := by
  have horder : orderCropPoints
      [⟨0, 0, false⟩, ⟨100, 0, false⟩, ⟨200, 0, false⟩, ⟨300, 0, false⟩] =
      .ok [⟨0, 0, false⟩, ⟨200, 0, false⟩, ⟨100, 0, false⟩, ⟨300, 0, false⟩] := by
    norm_num [orderCropPoints, List.insertionSort, List.orderedInsert, sumLe, trblLe,
      trblCompare]
  have hdim : calculateOutputDimensions
      [⟨0, 0, false⟩, ⟨100, 0, false⟩, ⟨200, 0, false⟩, ⟨300, 0, false⟩] 1 =
      .ok ⟨100, 200⟩ := by
    rw [calculateOutputDimensions_eval ⟨0, 0, false⟩ ⟨100, 0, false⟩ ⟨200, 0, false⟩
      ⟨300, 0, false⟩ 1 100 100 200 200 (by norm_num) (by norm_num) (by norm_num)
      (by norm_num) (by norm_num) (by norm_num) (by norm_num) (by norm_num)]
    norm_num
  refine ⟨hdim, ?_⟩
  have h := performPerspectiveCrop_catches (fun _ _ => .error "Matrix is singular")
    ⟨1, 1, [0, 0, 0, 0]⟩ 1 1 _ 1 _ ⟨100, 200⟩ "Matrix is singular" (by simp) horder hdim
    (by norm_num) (by norm_num) rfl
  rw [h]
  have happ : "Crop failed: " ++ "Matrix is singular" = "Crop failed: Matrix is singular" :=
    rfl
  rw [happ]

/-! ### Claim C1 — which points feed the dimension computation -/

theorem cropDimsRawEval :
    (performPerspectiveCrop (fun _ _ => .ok ⟨fun a b => (a, b)⟩) ⟨1, 1, [0, 0, 0, 0]⟩
        1 1 [⟨0, 0, false⟩, ⟨0, 200, false⟩, ⟨100, 0, false⟩, ⟨100, 200, false⟩]
        1).success = true ∧
    (performPerspectiveCrop (fun _ _ => .ok ⟨fun a b => (a, b)⟩) ⟨1, 1, [0, 0, 0, 0]⟩
        1 1 [⟨0, 0, false⟩, ⟨0, 200, false⟩, ⟨100, 0, false⟩, ⟨100, 200, false⟩]
        1).dimensions = some ⟨200, 100⟩ := by
  have horder : orderCropPoints
      [⟨0, 0, false⟩, ⟨0, 200, false⟩, ⟨100, 0, false⟩, ⟨100, 200, false⟩] =
      .ok [⟨0, 0, false⟩, ⟨100, 0, false⟩, ⟨0, 200, false⟩, ⟨100, 200, false⟩] := by
    norm_num [orderCropPoints, List.insertionSort, List.orderedInsert, sumLe, trblLe,
      trblCompare]
  have hdim : calculateOutputDimensions
      [⟨0, 0, false⟩, ⟨0, 200, false⟩, ⟨100, 0, false⟩, ⟨100, 200, false⟩] 1 =
      .ok ⟨200, 100⟩ := by
    rw [calculateOutputDimensions_eval ⟨0, 0, false⟩ ⟨0, 200, false⟩ ⟨100, 0, false⟩
      ⟨100, 200, false⟩ 1 200 200 100 100 (by norm_num) (by norm_num) (by norm_num)
      (by norm_num) (by norm_num) (by norm_num) (by norm_num) (by norm_num)]
    norm_num
  have hbody := performPerspectiveCropBody_eval (fun _ _ => .ok ⟨fun a b => (a, b)⟩)
    ⟨1, 1, [0, 0, 0, 0]⟩ 1 1
    [⟨0, 0, false⟩, ⟨0, 200, false⟩, ⟨100, 0, false⟩, ⟨100, 200, false⟩] 1
    [⟨0, 0, false⟩, ⟨100, 0, false⟩, ⟨0, 200, false⟩, ⟨100, 200, false⟩] ⟨200, 100⟩
    (by simp) horder hdim
  constructor
  · unfold performPerspectiveCrop
    rw [hbody, if_neg (by norm_num), if_neg (by norm_num)]
  · unfold performPerspectiveCrop
    rw [hbody, if_neg (by norm_num), if_neg (by norm_num)]

/-- C1, counterexample: the scrambled rectangle
`[(0,0), (0,200), (100,0), (100,200)]` is accepted by
`performPerspectiveCrop` (success) with dimensions `200 × 100`, computed from
the raw input order; computing dimensions through `orderCropPoints` as the
claim states would give `100 × 200`, a different value. -/
theorem performPerspectiveCrop_dims_unordered_cex :
    (performPerspectiveCrop (fun _ _ => .ok ⟨fun a b => (a, b)⟩) ⟨1, 1, [0, 0, 0, 0]⟩
        1 1 [⟨0, 0, false⟩, ⟨0, 200, false⟩, ⟨100, 0, false⟩, ⟨100, 200, false⟩]
        1).success = true ∧
    (performPerspectiveCrop (fun _ _ => .ok ⟨fun a b => (a, b)⟩) ⟨1, 1, [0, 0, 0, 0]⟩
        1 1 [⟨0, 0, false⟩, ⟨0, 200, false⟩, ⟨100, 0, false⟩, ⟨100, 200, false⟩]
        1).dimensions = some ⟨200, 100⟩ ∧
    orderCropPoints [⟨0, 0, false⟩, ⟨0, 200, false⟩, ⟨100, 0, false⟩, ⟨100, 200, false⟩] =
      .ok [⟨0, 0, false⟩, ⟨100, 0, false⟩, ⟨0, 200, false⟩, ⟨100, 200, false⟩] ∧
    calculateOutputDimensions
        [⟨0, 0, false⟩, ⟨100, 0, false⟩, ⟨0, 200, false⟩, ⟨100, 200, false⟩] 1 =
      .ok ⟨100, 200⟩ ∧
    (⟨200, 100⟩ : ImageDimensions) ≠ ⟨100, 200⟩ := by
  refine ⟨cropDimsRawEval.1, cropDimsRawEval.2, ?_, ?_, by simp⟩
  · norm_num [orderCropPoints, List.insertionSort, List.orderedInsert, sumLe, trblLe,
      trblCompare]
  · rw [calculateOutputDimensions_eval ⟨0, 0, false⟩ ⟨100, 0, false⟩ ⟨0, 200, false⟩
      ⟨100, 200, false⟩ 1 100 100 200 200 (by norm_num) (by norm_num) (by norm_num)
      (by norm_num) (by norm_num) (by norm_num) (by norm_num) (by norm_num)]
    norm_num

/-- C1 (amended): the dimensions `performPerspectiveCrop` validates against
the 50/5000 bounds and returns are `calculateOutputDimensions(cropPoints,
dpr)` computed on the raw input order; `orderCropPoints` is called, but its
result feeds only the transform's source points, not the dimension
computation. -/
theorem performPerspectiveCrop_dims_raw
    (perspT : List ℚ → List ℚ → Except String PerspTransform)
    (src : ImageData) (sw sh : ℤ) (cropPoints : List CropPoint) (dpr : ℚ)
    (d : ImageDimensions)
    (h4 : cropPoints.length = 4)
    (hd : (performPerspectiveCrop perspT src sw sh cropPoints dpr).dimensions = some d) :
    calculateOutputDimensions cropPoints dpr = .ok d := by
  obtain ⟨ord, horder⟩ := orderCropPoints_isOk cropPoints h4
  obtain ⟨d', hdim⟩ := calculateOutputDimensions_isOk cropPoints dpr h4
  have hbody := performPerspectiveCropBody_eval perspT src sw sh cropPoints dpr ord d'
    h4 horder hdim
  unfold performPerspectiveCrop at hd
  rw [hbody] at hd
  by_cases hs : d'.width < 50 ∨ d'.height < 50
  · rw [if_pos hs] at hd
    simp at hd
  · rw [if_neg hs] at hd
    by_cases hl : d'.width > 5000 ∨ d'.height > 5000
    · rw [if_pos hl] at hd
      simp at hd
    · rw [if_neg hl] at hd
      rcases hmatch : perspT (srcCoords ord) (dstCoords d') with e | T <;>
        rw [hmatch] at hd
      · simp at hd
      · simp at hd
        rw [← hd]
        exact hdim

/-- C1, witness: the amended theorem applied at the counterexample input,
where the returned dimensions are the raw-order `200 × 100`. -/
theorem performPerspectiveCrop_dims_raw_witness :
    ([⟨0, 0, false⟩, ⟨0, 200, false⟩, ⟨100, 0, false⟩, ⟨100, 200, false⟩] :
        List CropPoint).length = 4 ∧
    calculateOutputDimensions
        [⟨0, 0, false⟩, ⟨0, 200, false⟩, ⟨100, 0, false⟩, ⟨100, 200, false⟩] 1 =
      .ok ⟨200, 100⟩ :=
  ⟨by simp,
    performPerspectiveCrop_dims_raw (fun _ _ => .ok ⟨fun a b => (a, b)⟩)
      ⟨1, 1, [0, 0, 0, 0]⟩ 1 1
      [⟨0, 0, false⟩, ⟨0, 200, false⟩, ⟨100, 0, false⟩, ⟨100, 200, false⟩] 1
      ⟨200, 100⟩ (by simp) cropDimsRawEval.2⟩

end ScanSketch
